import Mathlib

/-!
A verification development for the Mentat/Datomish query pipeline.

Rust strings are modelled as lists of characters (`Str`); Rust machine
integers (`i64`, `u64`, `i32`) as `Int`/`Nat` (none of the modelled code
relies on wrap-around); `Option`/`Result` as `Option`/`Except`; structs and
enums as inductive types; `&mut self` methods as explicit state-passing
functions.  Hash maps whose iteration order is immaterial to the modelled
results (the builder's dedup maps, whose entries are sorted by their
distinct keys before being returned) are modelled as insertion-ordered
association lists.
-/

/-- Rust `String` / `&str`, modelled as a list of characters. -/
abbrev Str := List Char

/-- Rust's `ToString` for `Int` (`i64::to_string`). -/
def intToStr (i : Int) : Str := (toString i).toList

/-- Byte-wise lexicographic `<=` on strings, as Rust's `str::cmp`
(`k1.cmp(k2) != Greater`).  On ASCII strings, comparing character
code points agrees with comparing UTF-8 bytes. -/
def lexLe : Str → Str → Bool
  | [], _ => true
  | _ :: _, [] => false
  | a :: as_, b :: bs => if a < b then true else if b < a then false else lexLe as_ bs

theorem lexLe_total (a b : Str) : lexLe a b = true ∨ lexLe b a = true := by
  induction a generalizing b with
  | nil => left; rfl
  | cons x xs ih =>
    cases b with
    | nil => right; rfl
    | cons y ys =>
      by_cases hxy : x < y
      · left; simp [lexLe, hxy]
      · by_cases hyx : y < x
        · right; simp [lexLe, hyx]
        · rcases ih ys with h | h
          · left; simp [lexLe, hxy, hyx, h]
          · right; simp [lexLe, hxy, hyx, h]

theorem lexLe_trans {a b c : Str} (hab : lexLe a b = true) (hbc : lexLe b c = true) :
    lexLe a c = true := by
  induction a generalizing b c with
  | nil => rfl
  | cons x xs ih =>
    cases b with
    | nil => simp [lexLe] at hab
    | cons y ys =>
      cases c with
      | nil => simp [lexLe] at hbc
      | cons z zs =>
        simp only [lexLe] at hab hbc ⊢
        by_cases hxy : x < y
        · by_cases hyz : y < z
          · have hxz : x < z := lt_trans hxy hyz
            simp [hxz]
          · by_cases hzy : z < y
            · simp [lexLe, hyz, hzy] at hbc
            · have hyzeq : y = z := le_antisymm (not_lt.mp hzy) (not_lt.mp hyz)
              subst hyzeq
              simp [hxy]
        · by_cases hyx : y < x
          · simp [hxy, hyx] at hab
          · have hxyeq : x = y := le_antisymm (not_lt.mp hyx) (not_lt.mp hxy)
            subst hxyeq
            by_cases hyz : x < z
            · simp [hyz]
            · by_cases hzy : z < x
              · simp [hyz, hzy] at hbc
              · simp only [hxy, hyx, if_false] at hab
                simp only [hyz, hzy, if_false] at hbc
                simp [hyz, hzy, ih hab hbc]

/-! ## edn symbols (src/edn/src/symbols.rs)

`NamespaceableName` (the shared backing type, in the edn crate's
`namespaceable_name.rs`, not present under src/) is just a namespace/name
pair; `NamespacedKeyword` wraps it with both parts non-empty.  The
constructor asserts are preconditions of the Rust code and are not
reproduced; the functions below are total on the representation. -/

/-- `edn::symbols::PlainSymbol`. -/
structure PlainSymbol where
  sym : Str
deriving DecidableEq

/-- `PlainSymbol::is_var_symbol`: starts with `?`. -/
def PlainSymbol.is_var_symbol (s : PlainSymbol) : Bool :=
  s.sym.head? == some '?' 

/-- `PlainSymbol::is_src_symbol`: starts with `$`. -/
def PlainSymbol.is_src_symbol (s : PlainSymbol) : Bool :=
  s.sym.head? == some '$' 

/-- `PlainSymbol::plain_name`: the name without any leading `?` or `$`. -/
def PlainSymbol.plain_name (s : PlainSymbol) : Str :=
  if s.is_src_symbol || s.is_var_symbol then s.sym.drop 1 else s.sym

/-- `edn::symbols::NamespacedKeyword`: a namespace/name pair, both expected
non-empty. -/
structure NamespacedKeyword where
  namespace_ : Str
  name : Str
deriving DecidableEq

/-- `NamespacedKeyword::is_backward`: the name starts with `_`. -/
def NamespacedKeyword.is_backward (k : NamespacedKeyword) : Bool :=
  k.name.head? == some '_' 

/-- `NamespacedKeyword::is_forward`. -/
def NamespacedKeyword.is_forward (k : NamespacedKeyword) : Bool :=
  !k.is_backward

/-- `NamespacedKeyword::to_reversed`: if the name starts with `_`, strip it
(`&name[1..]`); otherwise prepend `_` (`format!("_{}", name)`). -/
def NamespacedKeyword.to_reversed (k : NamespacedKeyword) : NamespacedKeyword :=
  if k.is_backward then ⟨k.namespace_, k.name.tail⟩
  else ⟨k.namespace_, '_' :: k.name⟩

/-- `NamespacedKeyword::unreversed`. -/
def NamespacedKeyword.unreversed (k : NamespacedKeyword) : Option NamespacedKeyword :=
  if k.is_backward then some ⟨k.namespace_, k.name.tail⟩ else none

/-- The `Display` rendering `:ns/name` of a namespaced keyword. -/
def NamespacedKeyword.display (k : NamespacedKeyword) : Str :=
  ':' :: (k.namespace_ ++ '/' :: k.name)

/-! ## Core typed values (the mentat_core crate is not under src/)

The `TypedValue` and `ValueType` enums are reconstructed from their
exhaustive `match` use sites in src/sql/src/lib.rs,
src/query-translator/src/translate.rs and
src/query-algebrizer/src/clauses/resolve.rs, together with spec section 3
("A closed tag set {Ref, Boolean, Long, Double, String, Keyword, Uuid,
Instant}").  An instant is carried as its microsecond count (`ToMicros`);
a UUID as its sixteen bytes. -/

inductive ValueType where
  | Ref
  | Boolean
  | Instant
  | Long
  | Double
  | String
  | Keyword
  | Uuid
deriving DecidableEq, Repr

/-- Modelled from the spec: each value type has a distinct small integer
tag; boolean's tag is 1 (spec section 8: `d00.value_type_tag <> 1`), refs
tag 0 and longs/doubles tag 5 (comment on `QueryValue::PrimitiveLong`:
"`datoms00.value_type_tag` must be in the set `#{0, 4, 5}`" for
ref/instant/long-or-double), strings tag 10 (comment in `translate.rs`:
"exclude the string type code (10)").  The keyword and uuid tags are not
pinned by the sources in view; only their distinctness matters here. -/
def ValueType.value_type_tag : ValueType → Int
  | .Ref => 0
  | .Boolean => 1
  | .Instant => 4
  | .Long => 5
  | .Double => 5
  | .String => 10
  | .Uuid => 11
  | .Keyword => 13

/-- Modelled from the spec: `ValueType::Boolean.accommodates_integer(v)`
holds exactly when the integer is in boolean range ("booleans encode as
integers 0/1"; "an extra constraint ... when the integer is in boolean
range (0 or 1)"). -/
def ValueType.accommodates_integer : ValueType → Int → Bool
  | .Boolean, v => v == 0 || v == 1
  | .Long, _ => true
  | .Double, _ => true
  | .Ref, v => v ≥ 0
  | .Instant, _ => false
  | .String, _ => false
  | .Keyword, _ => false
  | .Uuid, _ => false

/-- A UUID value, by its sixteen bytes (`Uuid::as_bytes`). -/
structure Uuid where
  bytes : List Nat
deriving DecidableEq

/-- `mentat_core::TypedValue`.  The `f64` payload of `Double` is carried as
a Lean `Float`; no claim depends on float semantics or formatting. -/
inductive TypedValue where
  | Ref (entid : Int)
  | Boolean (b : Bool)
  | Long (v : Int)
  | Double (v : Float)
  | Instant (micros : Int)
  | Uuid (u : Uuid)
  | String (s : Str)
  | Keyword (k : NamespacedKeyword)

/-- `rusqlite::types::Value` (only the variants the builder produces). -/
inductive SqlValue where
  | Text (s : Str)
  | Blob (bytes : List Nat)
deriving DecidableEq

/-! ## The SQL query builder (src/sql/src/lib.rs) -/

/-- The error kinds of the mentat_sql crate. -/
inductive SqlError where
  | InvalidParameterName (name : Str)
  | BindParamCouldBeGenerated (name : Str)
deriving DecidableEq

/-- `SQLQuery`: the generated string plus the initial argument list. -/
structure SQLQuery where
  sql : Str
  args : List (Str × SqlValue)

/-- `SQLiteQueryBuilder`.  The field `arg_stem` is the source's
`arg_prefix` (the generated-parameter name stem, `"$v"` by default); the
two dedup hash maps are modelled as insertion-ordered association lists
from value to argument name. -/
structure SQLiteQueryBuilder where
  sql : Str
  arg_stem : Str
  arg_counter : Int
  uuid_args : List (Uuid × Str)
  string_args : List (Str × Str)
  args : List (Str × SqlValue)

/-- `SQLiteQueryBuilder::with_prefix`. -/
def SQLiteQueryBuilder.with_stem (stem : Str) : SQLiteQueryBuilder :=
  { sql := [], arg_stem := stem, arg_counter := 0,
    uuid_args := [], string_args := [], args := [] }

/-- `SQLiteQueryBuilder::new`: prefix `"$v"`. -/
def SQLiteQueryBuilder.new : SQLiteQueryBuilder :=
  SQLiteQueryBuilder.with_stem ['$', 'v']

/-- `next_argument_name`: `format!("{}{}", arg_prefix, arg_counter)`, then
increment the counter. -/
def SQLiteQueryBuilder.next_argument_name (b : SQLiteQueryBuilder) :
    Str × SQLiteQueryBuilder :=
  (b.arg_stem ++ intToStr b.arg_counter, { b with arg_counter := b.arg_counter + 1 })

/-- `push_sql`. -/
def SQLiteQueryBuilder.push_sql (b : SQLiteQueryBuilder) (s : Str) : SQLiteQueryBuilder :=
  { b with sql := b.sql ++ s }

/-- `push_named_arg`: just pushes the argument name into the SQL. -/
def SQLiteQueryBuilder.push_named_arg (b : SQLiteQueryBuilder) (arg : Str) : SQLiteQueryBuilder :=
  b.push_sql arg

/-- `push_static_arg`: allocate a name, push it, and record `(name, value)`. -/
def SQLiteQueryBuilder.push_static_arg (b : SQLiteQueryBuilder) (val : SqlValue) :
    SQLiteQueryBuilder :=
  let (arg, b) := b.next_argument_name
  let b := b.push_named_arg arg
  { b with args := b.args ++ [(arg, val)] }

/-- `push_identifier`: backtick-quote, doubling embedded backticks. -/
def SQLiteQueryBuilder.push_identifier (b : SQLiteQueryBuilder) (identifier : Str) :
    SQLiteQueryBuilder :=
  let escaped := identifier.flatMap (fun c => if c = '`' then ['`', '`'] else [c])
  ((b.push_sql ['`']).push_sql escaped).push_sql ['`']

/-- `push_typed_value`.  Numeric and instant values are inlined; strings
and UUIDs become deduplicated named parameters; keywords become fresh
static text parameters (not deduplicated).  The Rust function always
returns `Ok(())`, so the result type carries only the updated builder.
The rendering of an `f64` (`v.to_string()`) is modelled by Lean's float
formatting; no claim depends on the rendered text of doubles. -/
def SQLiteQueryBuilder.push_typed_value (b : SQLiteQueryBuilder) (value : TypedValue) :
    SQLiteQueryBuilder :=
  match value with
  | .Ref entid => b.push_sql (intToStr entid)
  | .Boolean v => b.push_sql (if v then ['1'] else ['0'])
  | .Long v => b.push_sql (intToStr v)
  | .Double v => b.push_sql v.toString.toList
  | .Instant dt => b.push_sql (intToStr dt)
  | .Uuid u =>
    match b.uuid_args.find? (fun p => p.1 == u) with
    | some p => b.push_named_arg p.2
    | none =>
      let (arg, b) := b.next_argument_name
      let b := b.push_named_arg arg
      { b with uuid_args := b.uuid_args ++ [(u, arg)] }
  | .String s =>
    match b.string_args.find? (fun p => p.1 == s) with
    | some p => b.push_named_arg p.2
    | none =>
      let (arg, b) := b.next_argument_name
      let b := b.push_named_arg arg
      { b with string_args := b.string_args ++ [(s, arg)] }
  | .Keyword s => b.push_static_arg (.Text s.display)

/-- `push_bind_param`: a user-supplied name must be alphanumeric-or-`_`
(`InvalidParameterName`), and must not match the generated pattern, the
prefix followed by only numeric characters (`BindParamCouldBeGenerated`);
otherwise `$name` is pushed.  Rust's Unicode `char::is_alphanumeric` and
`char::is_numeric` are modelled by `Char.isAlphanum` and `Char.isDigit`,
and the byte length `arg_prefix.len()` by the character count (the two
agree on the ASCII names this code deals in). -/
def SQLiteQueryBuilder.push_bind_param (b : SQLiteQueryBuilder) (name : Str) :
    Except SqlError SQLiteQueryBuilder :=
  if !(name.all fun c => c.isAlphanum || c == '_') then
    .error (.InvalidParameterName name)
  else if b.arg_stem.isPrefixOf name && (name.drop b.arg_stem.length).all Char.isDigit then
    .error (.BindParamCouldBeGenerated name)
  else
    .ok ((b.push_sql ['$']).push_sql name)

/-- The comparator of `finish`'s `args.sort_by`: ascending placeholder
name. -/
def argNameLe (x y : Str × SqlValue) : Prop := lexLe x.1 y.1 = true

instance : DecidableRel argNameLe := fun x y => decEq (lexLe x.1 y.1) true

instance : IsTotal (Str × SqlValue) argNameLe :=
  ⟨fun x y => lexLe_total x.1 y.1⟩

instance : IsTrans (Str × SqlValue) argNameLe :=
  ⟨fun _ _ _ => lexLe_trans⟩

/-- `finish`: turn the dedup maps into `Text`/`Blob` arguments, append
them to the static arguments, and sort the whole list by argument name.
Rust's stable `sort_by` is modelled by insertion sort; all argument names
are distinct (they are generated from one monotone counter), so any
comparison sort produces the same list. -/
def SQLiteQueryBuilder.finish (b : SQLiteQueryBuilder) : SQLQuery :=
  let args := b.args
    ++ b.string_args.map (fun p => (p.2, SqlValue.Text p.1))
    ++ b.uuid_args.map (fun p => (p.2, SqlValue.Blob p.1.bytes))
  { sql := b.sql, args := args.insertionSort argNameLe }

/-! ## Query AST (the mentat_query crate is not under src/)

`Variable`, `SrcVar`, `NonIntegerConstant`, `FnArg`, the pattern places and
`Pattern` are reconstructed from their use sites in
src/query-parser/src/parse.rs and
src/query-algebrizer/src/clauses/resolve.rs, and from spec sections 4.1
and 4.2. -/

/-- `mentat_query::Variable`: a plain symbol beginning with `?`. -/
structure Variable where
  sym : PlainSymbol
deriving DecidableEq

/-- `Variable::name`: the symbol's name without the leading `?`. -/
def Variable.name (v : Variable) : Str := v.sym.plain_name

/-- `Variable::from_symbol`: accept exactly the `?`-initial plain symbols. -/
def Variable.from_symbol (s : PlainSymbol) : Option Variable :=
  if s.is_var_symbol then some ⟨s⟩ else none

/-- `mentat_query::SrcVar`. -/
inductive SrcVar where
  | DefaultSrc
  | NamedSrc (name : Str)
deriving DecidableEq

/-- `mentat_query::NonIntegerConstant` (variants as matched in
resolve.rs).  `BigInteger` is carried as an unbounded integer and
`Instant` as microseconds. -/
inductive NonIntegerConstant where
  | Boolean (b : Bool)
  | BigInteger (i : Int)
  | Float (f : Float)
  | Text (s : Str)
  | Instant (micros : Int)
  | Uuid (u : Uuid)

/-- `mentat_query::FnArg` (variants as matched in resolve.rs). -/
inductive FnArg where
  | Variable (v : Variable)
  | SrcVar (s : SrcVar)
  | EntidOrInteger (i : Int)
  | IdentOrKeyword (k : NamespacedKeyword)
  | Constant (c : NonIntegerConstant)
  | Vector (args : List FnArg)

/-- `mentat_query::PatternNonValuePlace`: what may sit in the e/a/tx
positions of a pattern. -/
inductive PatternNonValuePlace where
  | Placeholder
  | Variable (v : Variable)
  | Entid (e : Int)
  | Ident (k : NamespacedKeyword)
deriving DecidableEq

/-- `mentat_query::PatternValuePlace`: what may sit in the v position. -/
inductive PatternValuePlace where
  | Placeholder
  | Variable (v : Variable)
  | EntidOrInteger (i : Int)
  | IdentOrKeyword (k : NamespacedKeyword)
  | Constant (c : NonIntegerConstant)

/-- Modelled from the spec: the embedding of an entity-position place into
the value position, used when a reversed pattern swaps its entity and
value ("`[?x :ns/_attr ?y]` is equivalent to `[?y :ns/attr ?x]`": the old
entity place reappears in value position). -/
def PatternNonValuePlace.to_pattern_value_place : PatternNonValuePlace → PatternValuePlace
  | .Placeholder => .Placeholder
  | .Variable v => .Variable v
  | .Entid e => .EntidOrInteger e
  | .Ident k => .IdentOrKeyword k

/-- `mentat_query::Pattern`.  The field `attr` is the source's
`attribute` (a Lean keyword). -/
structure Pattern where
  source : Option SrcVar
  entity : PatternNonValuePlace
  attr : PatternNonValuePlace
  value : PatternValuePlace
  tx : PatternNonValuePlace

/-- Modelled from the spec: `Pattern::new` (mentat_query crate, not under
src/).  "Names with a leading `_` denote reversed attributes: `[?x
:ns/_attr ?y]` is equivalent to `[?y :ns/attr ?x]` ... The reversal rule
is only valid when the value position is a variable; a reversed pattern
with a non-variable value is a parse-time error."  So for a backward
ident attribute with a variable in value position, swap entity and value
and un-reverse the attribute; for a backward attribute with a
non-variable value, fail; otherwise build the pattern as given. -/
def Pattern.new (source : Option SrcVar) (e a : PatternNonValuePlace)
    (v : PatternValuePlace) (tx : PatternNonValuePlace) : Option Pattern :=
  match a with
  | .Ident k =>
    if k.is_backward then
      match v with
      | .Variable y =>
        some ⟨source, .Variable y, .Ident k.to_reversed, e.to_pattern_value_place, tx⟩
      | _ => none
    else
      some ⟨source, e, a, v, tx⟩
  | _ => some ⟨source, e, a, v, tx⟩

/-! ## Limit parsing (src/query-parser/src/parse.rs) -/

/-- The edn values a `:limit` position can hold (edn crate's `SpannedValue`
restricted to the shapes the limit parser distinguishes; spans carry no
information used here). -/
inductive EdnValue where
  | Integer (i : Int)
  | Text (s : Str)
  | Boolean (b : Bool)
  | PlainSym (s : PlainSymbol)
  | NamespacedKw (k : NamespacedKeyword)

/-- The parser error kinds of src/query-parser/src/parse.rs used by limit
parsing. -/
inductive QueryParseError where
  | InvalidLimit (val : EdnValue)
  | UnknownLimitVar (var : Str)

/-- `mentat_query::Limit`. -/
inductive Limit where
  | None
  | Fixed (n : Nat)
  | Variable (v : Variable)

/-- `Query::natural_number`: accept a positive integer (as `u64`), reject
everything else with `InvalidLimit` carrying the offending value. -/
def Query.natural_number (v : EdnValue) : Except QueryParseError Nat :=
  match v with
  | .Integer x => if x > 0 then .ok x.toNat else .error (.InvalidLimit (.Integer x))
  | other => .error (.InvalidLimit other)

/-- `Variable::from_value`: a variable is a plain symbol starting with
`?`. -/
def Variable.from_value (v : EdnValue) : Option Variable :=
  match v with
  | .PlainSym s => Variable.from_symbol s
  | _ => none

/-- The `:limit` entry of `Find::query`'s keyword map:
`Query::variable().map(Limit::Variable).or(Query::natural_number().map(Limit::Fixed))`.
The variable parser fails without consuming on a non-variable, so `.or`
then runs `natural_number`. -/
def parseLimit (v : EdnValue) : Except QueryParseError Limit :=
  match Variable.from_value v with
  | some var => .ok (.Variable var)
  | none => (Query.natural_number v).map .Fixed

/-- The limit handling of `Find::query`: parse the `:limit` value, then
require a variable limit to appear in `:in`
(`ErrorKind::UnknownLimitVar(v.name())` otherwise). -/
def parseQueryLimit (v : EdnValue) (in_vars : List Variable) :
    Except QueryParseError Limit := do
  let limit ← parseLimit v
  match limit with
  | .Variable var =>
    if in_vars.contains var then pure limit
    else .error (.UnknownLimitVar var.name)
  | _ => pure limit

/-! ## Algebrizer types (src/query-algebrizer/src/types.rs) -/

/-- `DatomsTable`. -/
inductive DatomsTable where
  | Datoms
  | FulltextValues
  | FulltextDatoms
  | AllDatoms
  | Computed (i : Nat)
deriving DecidableEq

/-- `DatomsTable::name`. -/
def DatomsTable.name : DatomsTable → Str
  | .Datoms => "datoms".toList
  | .FulltextValues => "fulltext_values".toList
  | .FulltextDatoms => "fulltext_datoms".toList
  | .AllDatoms => "all_datoms".toList
  | .Computed _ => "c".toList

/-- `DatomsColumn`. -/
inductive DatomsColumn where
  | Entity
  | Attribute
  | Value
  | Tx
  | ValueTypeTag
deriving DecidableEq

/-- `DatomsColumn::as_str`. -/
def DatomsColumn.as_str : DatomsColumn → Str
  | .Entity => "e".toList
  | .Attribute => "a".toList
  | .Value => "v".toList
  | .Tx => "tx".toList
  | .ValueTypeTag => "value_type_tag".toList

/-- `VariableColumn`. -/
inductive VariableColumn where
  | Variable (v : Variable)
  | VariableTypeTag (v : Variable)
deriving DecidableEq

/-- `Column`. -/
inductive Column where
  | Fixed (c : DatomsColumn)
  | Variable (v : VariableColumn)
deriving DecidableEq

/-- `TableAlias`: e.g. `"datoms123"`. -/
abbrev TableAlias := Str

/-- `SourceAlias`: a table and its alias. -/
structure SourceAlias where
  table : DatomsTable
  alias_ : TableAlias
deriving DecidableEq

/-- `QualifiedAlias`: a column of an aliased table. -/
structure QualifiedAlias where
  table : TableAlias
  column : Column
deriving DecidableEq

/-- `QualifiedAlias::new`. -/
def QualifiedAlias.new (table : TableAlias) (column : Column) : QualifiedAlias :=
  ⟨table, column⟩

/-- `QualifiedAlias::for_type_tag`: same table, `ValueTypeTag` column. -/
def QualifiedAlias.for_type_tag (qa : QualifiedAlias) : QualifiedAlias :=
  ⟨qa.table, .Fixed .ValueTypeTag⟩

/-- `QueryValue`. -/
inductive QueryValue where
  | Column (qa : QualifiedAlias)
  | Entid (e : Int)
  | TypedValue (tv : TypedValue)
  | PrimitiveLong (v : Int)

/-- `NumericComparison`. -/
inductive NumericComparison where
  | LessThan
  | LessThanOrEquals
  | GreaterThan
  | GreaterThanOrEquals
  | NotEquals
deriving DecidableEq

/-- `NumericComparison::to_sql_operator`. -/
def NumericComparison.to_sql_operator : NumericComparison → Str
  | .LessThan => "<".toList
  | .LessThanOrEquals => "<=".toList
  | .GreaterThan => ">".toList
  | .GreaterThanOrEquals => ">=".toList
  | .NotEquals => "<>".toList

/-- `ColumnConstraint`. -/
inductive ColumnConstraint where
  | Equals (qa : QualifiedAlias) (val : QueryValue)
  | NumericInequality (operator : NumericComparison) (left right : QueryValue)
  | HasType (table : TableAlias) (value_type : ValueType)

mutual
/-- `ColumnConstraintOrAlternation`. -/
inductive ColumnConstraintOrAlternation where
  | Constraint (c : ColumnConstraint)
  | Alternation (alt : ColumnAlternation)
/-- `ColumnIntersection`: satisfied when all inner constraints are. -/
inductive ColumnIntersection where
  | mk (constraints : List ColumnConstraintOrAlternation)
/-- `ColumnAlternation`: satisfied when at least one inner intersection is. -/
inductive ColumnAlternation where
  | mk (alternatives : List ColumnIntersection)
end

/-- The constraint list of a `ColumnIntersection`. -/
def ColumnIntersection.constraints : ColumnIntersection → List ColumnConstraintOrAlternation
  | .mk cs => cs

/-- The alternatives of a `ColumnAlternation`. -/
def ColumnAlternation.alternatives : ColumnAlternation → List ColumnIntersection
  | .mk alts => alts

/-- `EmptyBecause`: why a CC is known to produce no rows.  The `HashSet` of
`TypeMismatch` is carried as a `Finset`. -/
inductive EmptyBecause where
  | TypeMismatch (var : Variable) (existing : Finset ValueType) (desired : ValueType)
  | NoValidTypes (var : Variable)
  | NonNumericArgument
  | NonInstantArgument
  | NonStringFulltextValue
  | UnresolvedIdent (k : NamespacedKeyword)
  | InvalidAttributeIdent (k : NamespacedKeyword)
  | InvalidAttributeEntid (e : Int)
  | InvalidBinding (c : Column) (tv : TypedValue)
  | ValueTypeMismatch (vt : ValueType) (tv : TypedValue)
  | AttributeLookupFailed

/-- `ValueTypeSet`: none, any, one, or a set of value types.  The
`EnumSet<ValueType>` of the `Many` variant is carried as a `Finset`. -/
inductive ValueTypeSet where
  | None
  | Any
  | One (t : ValueType)
  | Many (s : Finset ValueType)
deriving DecidableEq

/-- All value types, in tag order; `EnumSet` iterates in this order. -/
def allValueTypes : List ValueType :=
  [.Ref, .Boolean, .Instant, .Long, .Double, .String, .Uuid, .Keyword]

theorem mem_allValueTypes (t : ValueType) : t ∈ allValueTypes := by
  cases t <;> decide

/-- The element produced by `result.into_iter().next().unwrap()`: the first
member of the set in `EnumSet` iteration order (total, with an arbitrary
default on the empty set, which the source never hits). -/
def ValueTypeSet.pick (s : Finset ValueType) : ValueType :=
  (allValueTypes.find? (fun t => decide (t ∈ s))).getD .Ref

/-- `ValueTypeSet::unit`. -/
def ValueTypeSet.unit (t : ValueType) : ValueTypeSet := .One t

/-- `ValueTypeSet::of_numeric_types`: `{Double, Long}`. -/
def ValueTypeSet.of_numeric_types : ValueTypeSet :=
  .Many {ValueType.Double, ValueType.Long}

/-- `ValueTypeSet::contains`. -/
def ValueTypeSet.contains (s : ValueTypeSet) (vt : ValueType) : Bool :=
  match s with
  | .None => false
  | .Any => true
  | .One t => t == vt
  | .Many m => decide (vt ∈ m)

/-- `ValueTypeSet::is_none`. -/
def ValueTypeSet.is_none (s : ValueTypeSet) : Bool :=
  match s with
  | .None => true
  | _ => false

/-- `ValueTypeSet::intersection`.  In the `Many`/`Many` arm the enum-set
intersection is renormalized by its `len()`: empty to `None`, a singleton
to `One` of its only member. -/
def ValueTypeSet.intersection (s other : ValueTypeSet) : ValueTypeSet :=
  match s, other with
  | .None, _ => .None
  | _, .None => .None
  | s, .Any => s
  | .Any, s => s
  | .One t, s => if s.contains t then .One t else .None
  | s, .One t => if s.contains t then .One t else .None
  | .Many left, .Many right =>
    let result := left ∩ right
    if result.card = 0 then .None
    else if result.card = 1 then .One (ValueTypeSet.pick result)
    else .Many result

/-! ## Conjoining clauses (spec section 3; the struct itself and its
generic helpers live in query-algebrizer's clauses/mod.rs, not under
src/).

The fields are those of spec section 3's CC description, restricted to
the ones the code under src/ (translate.rs, resolve.rs) touches.  The
`from` list (`from` is a Lean keyword) is `from_`; the maps are
association lists. -/

mutual
/-- `ComputedTable`: currently only a union of CC arms. -/
inductive ComputedTable where
  | Union (projection : List Variable) (type_extraction : List Variable)
          (arms : List ConjoiningClauses)
/-- `ConjoiningClauses`. -/
inductive ConjoiningClauses where
  | mk (from_ : List SourceAlias)
       (computed_tables : List ComputedTable)
       (column_bindings : List (Variable × List QualifiedAlias))
       (wheres : ColumnIntersection)
       (known_types : List (Variable × ValueTypeSet))
       (value_bindings : List (Variable × TypedValue))
       (empty_because : Option EmptyBecause)
end

def ConjoiningClauses.from_ : ConjoiningClauses → List SourceAlias
  | .mk f _ _ _ _ _ _ => f

def ConjoiningClauses.computed_tables : ConjoiningClauses → List ComputedTable
  | .mk _ ct _ _ _ _ _ => ct

def ConjoiningClauses.column_bindings :
    ConjoiningClauses → List (Variable × List QualifiedAlias)
  | .mk _ _ cb _ _ _ _ => cb

def ConjoiningClauses.wheres : ConjoiningClauses → ColumnIntersection
  | .mk _ _ _ w _ _ _ => w

def ConjoiningClauses.known_types : ConjoiningClauses → List (Variable × ValueTypeSet)
  | .mk _ _ _ _ kt _ _ => kt

def ConjoiningClauses.value_bindings : ConjoiningClauses → List (Variable × TypedValue)
  | .mk _ _ _ _ _ vb _ => vb

def ConjoiningClauses.empty_because : ConjoiningClauses → Option EmptyBecause
  | .mk _ _ _ _ _ _ eb => eb

/-- Replace the `known_types` field. -/
def ConjoiningClauses.with_known_types (cc : ConjoiningClauses)
    (kt : List (Variable × ValueTypeSet)) : ConjoiningClauses :=
  match cc with
  | .mk f ct cb w _ vb eb => .mk f ct cb w kt vb eb

/-- Replace the `empty_because` field. -/
def ConjoiningClauses.with_empty_because (cc : ConjoiningClauses)
    (eb : Option EmptyBecause) : ConjoiningClauses :=
  match cc with
  | .mk f ct cb w kt vb _ => .mk f ct cb w kt vb eb

/-- Modelled from the spec: `is_known_empty` — the CC is known-empty
exactly when `empty_because` is set ("`empty_because`: optional reason
the CC has been proved to produce no rows"). -/
def ConjoiningClauses.is_known_empty (cc : ConjoiningClauses) : Bool :=
  cc.empty_because.isSome

/-- Modelled from the spec: `mark_known_empty` — mark the CC known-empty,
recording the reason ("Any clause that cannot be satisfied ... marks the
CC known-empty and sets `empty_because`"); the first recorded reason is
kept. -/
def ConjoiningClauses.mark_known_empty (cc : ConjoiningClauses)
    (why : EmptyBecause) : ConjoiningClauses :=
  match cc.empty_because with
  | some _ => cc
  | none => cc.with_empty_because (some why)

/-- Association-list update used to model `BTreeMap` entry assignment. -/
def assocUpdate {α β : Type} [DecidableEq α] (key : α) (val : β) :
    List (α × β) → List (α × β)
  | [] => []
  | (k, v) :: rest =>
    if k = key then (k, val) :: rest else (k, v) :: assocUpdate key val rest

/-- Association-list lookup used to model `BTreeMap::get`. -/
def assocGet {α β : Type} [DecidableEq α] (key : α) (l : List (α × β)) : Option β :=
  (l.find? (fun p => p.1 = key)).map (·.2)

/-- Modelled from the spec: `constrain_var_to_numeric` — "A numeric
predicate restricts its argument to numeric types" by intersecting the
variable's known type set with `{Long, Double}`, and "Marking a variable
with an empty type set makes the CC known-empty"
(`EmptyBecause::NoValidTypes`). -/
def ConjoiningClauses.constrain_var_to_numeric (cc : ConjoiningClauses)
    (var : Variable) : ConjoiningClauses :=
  match assocGet var cc.known_types with
  | some entry =>
    let inter := entry.intersection ValueTypeSet.of_numeric_types
    let cc := cc.with_known_types (assocUpdate var inter cc.known_types)
    if inter.is_none then cc.mark_known_empty (.NoValidTypes var) else cc
  | none =>
    cc.with_known_types (cc.known_types ++ [(var, ValueTypeSet.of_numeric_types)])

/-- The algebrizer error kinds used by argument resolution
(query-algebrizer's errors.rs, reconstructed from its use in
resolve.rs). -/
inductive AlgebrizerError where
  | UnboundVariable (name : Str)
  | InvalidArgument (function : PlainSymbol) (expected : Str) (position : Nat)

/-- `ConjoiningClauses::resolve_numeric_argument`
(src/query-algebrizer/src/clauses/resolve.rs): turn a function argument
into a `QueryValue` for a numeric position.  A variable is constrained to
numeric and resolved to its first column binding (`UnboundVariable` when
it has none); an integer or float is accepted as a typed value; every
other argument marks the CC known-empty (`NonNumericArgument`) and fails
with `InvalidArgument(function, "numeric", position)`.  The `&mut self`
receiver is modelled by returning the updated CC beside the result. -/
def ConjoiningClauses.resolve_numeric_argument (cc : ConjoiningClauses)
    (function : PlainSymbol) (position : Nat) (arg : FnArg) :
    Except AlgebrizerError QueryValue × ConjoiningClauses :=
  match arg with
  | .Variable var =>
    let cc := cc.constrain_var_to_numeric var
    match (assocGet var cc.column_bindings).bind
        (fun cols => cols.head?.map (fun col => QueryValue.Column col)) with
    | some qv => (.ok qv, cc)
    | none => (.error (.UnboundVariable var.name), cc)
  | .EntidOrInteger i => (.ok (.TypedValue (.Long i)), cc)
  | .Constant (.Float f) => (.ok (.TypedValue (.Double f)), cc)
  | _ =>
    let cc := cc.mark_known_empty .NonNumericArgument
    (.error (.InvalidArgument function "numeric".toList position), cc)

/-! ## The SQL intermediate representation (crate mentat_query_sql, not
under src/; src/query-translator/src/types.rs holds an older dead copy
without `distinct`, `limit`, unions or compound constraints).

The shapes below are reconstructed from their exhaustive construction
sites in src/query-translator/src/translate.rs and spec section 3's
`SelectQuery` description. -/

/-- `ColumnOrExpression`. -/
inductive ColumnOrExpression where
  | Column (qa : QualifiedAlias)
  | Entid (e : Int)
  | Integer (i : Int)
  | Value (tv : TypedValue)

/-- `ProjectedColumn`: an expression and its alias. -/
structure ProjectedColumn where
  expr : ColumnOrExpression
  name : Str

/-- `Projection`. -/
inductive Projection where
  | Columns (cols : List ProjectedColumn)
  | Star
  | One

/-- `Op`: a SQL operator, as text. -/
structure Op where
  op : Str
deriving DecidableEq

/-- `Constraint`. -/
inductive Constraint where
  | Infix (op : Op) (left right : ColumnOrExpression)
  | And (constraints : List Constraint)
  | Or (constraints : List Constraint)

/-- `Constraint::equal`. -/
def Constraint.equal (left right : ColumnOrExpression) : Constraint :=
  .Infix ⟨"=".toList⟩ left right

/-- `Constraint::not_equal`. -/
def Constraint.not_equal (left right : ColumnOrExpression) : Constraint :=
  .Infix ⟨"<>".toList⟩ left right

mutual
/-- `TableOrSubquery`: a named table, or a union of subqueries with an
alias.  (The `TableList` newtype around the vector is inlined into
`FromClause.TableList`.) -/
inductive TableOrSubquery where
  | Table (sa : SourceAlias)
  | Union (queries : List SelectQuery) (alias_ : TableAlias)
/-- `FromClause`. -/
inductive FromClause where
  | TableList (tables : List TableOrSubquery)
  | Nothing
/-- `SelectQuery`. -/
inductive SelectQuery where
  | mk (distinct : Bool) (projection : Projection) (from_ : FromClause)
       (constraints : List Constraint) (limit : Option Nat)
end

def SelectQuery.distinct : SelectQuery → Bool
  | .mk d _ _ _ _ => d

def SelectQuery.projection : SelectQuery → Projection
  | .mk _ p _ _ _ => p

def SelectQuery.from_ : SelectQuery → FromClause
  | .mk _ _ f _ _ => f

def SelectQuery.constraints : SelectQuery → List Constraint
  | .mk _ _ _ cs _ => cs

def SelectQuery.limit : SelectQuery → Option Nat
  | .mk _ _ _ _ l => l

/-! ## The translator (src/query-translator/src/translate.rs) -/

/-- `impl From<QueryValue> for ColumnOrExpression` (mentat_query_sql, not
under src/): the `.into()` used by the `NumericInequality` arm. -/
def QueryValue.toColumnOrExpression : QueryValue → ColumnOrExpression
  | .Column qa => .Column qa
  | .Entid e => .Entid e
  | .TypedValue tv => .Value tv
  | .PrimitiveLong v => .Value (.Long v)

/-- `impl ToConstraint for ColumnConstraint`.  A `PrimitiveLong` equality
adds a `value_type_tag <> boolean-tag` guard exactly when the long is in
boolean range. -/
def ColumnConstraint.to_constraint : ColumnConstraint → Constraint
  | .Equals qa (.Entid entid) =>
    Constraint.equal (.Column qa) (.Entid entid)
  | .Equals qa (.TypedValue tv) =>
    Constraint.equal (.Column qa) (.Value tv)
  | .Equals left (.Column right) =>
    Constraint.equal (.Column left) (.Column right)
  | .Equals qa (.PrimitiveLong value) =>
    let tag_column := ColumnOrExpression.Column qa.for_type_tag
    let value_column := ColumnOrExpression.Column qa
    let must_exclude_boolean := ValueType.Boolean.accommodates_integer value
    if must_exclude_boolean then
      .And [Constraint.equal value_column (.Value (.Long value)),
            Constraint.not_equal tag_column (.Integer ValueType.Boolean.value_type_tag)]
    else
      Constraint.equal value_column (.Value (.Long value))
  | .NumericInequality operator left right =>
    .Infix ⟨operator.to_sql_operator⟩ left.toColumnOrExpression right.toColumnOrExpression
  | .HasType table value_type =>
    Constraint.equal (.Column (QualifiedAlias.new table (.Fixed .ValueTypeTag)))
      (.Integer value_type.value_type_tag)

mutual
/-- `impl ToConstraint for ColumnConstraintOrAlternation`. -/
def ColumnConstraintOrAlternation.to_constraint :
    ColumnConstraintOrAlternation → Constraint
  | .Alternation alt => alt.to_constraint
  | .Constraint c => c.to_constraint
/-- `impl ToConstraint for ColumnAlternation`: an `Or` of intersections. -/
def ColumnAlternation.to_constraint : ColumnAlternation → Constraint
  | .mk alts => .Or (intersectionsToConstraints alts)
/-- `impl ToConstraint for ColumnIntersection`: an `And` of constraints. -/
def ColumnIntersection.to_constraint : ColumnIntersection → Constraint
  | .mk cs => .And (ccoasToConstraints cs)
/-- The `.map(|x| x.to_constraint())` over an intersection's items. -/
def ccoasToConstraints : List ColumnConstraintOrAlternation → List Constraint
  | [] => []
  | c :: rest => c.to_constraint :: ccoasToConstraints rest
/-- The `.map(|x| x.to_constraint())` over an alternation's items. -/
def intersectionsToConstraints : List ColumnIntersection → List Constraint
  | [] => []
  | i :: rest => i.to_constraint :: intersectionsToConstraints rest
end

/-- The default used to model the panics of
`cc.column_bindings.get(&var).unwrap()[0]` (in `table_for_computed`) and
`take_dangerously` on an absent computed-table index; the source code
never reaches these paths on the CCs the algebrizer produces. -/
def panicQualifiedAlias : QualifiedAlias := ⟨[], .Fixed .Entity⟩

/-- The per-arm projection list of `table_for_computed`: each projected
variable resolves to its first column binding in the arm, aliased by the
variable's surface name (`var.to_string()`, the symbol including `?`). -/
def unionVarColumns (projection : List Variable) (cc : ConjoiningClauses) :
    List ProjectedColumn :=
  projection.map (fun var =>
    let col := ((assocGet var cc.column_bindings).getD []).headD panicQualifiedAlias
    ⟨.Column col, var.sym.sym⟩)

/-- Indexing hits a member of the list. -/
theorem mem_of_getElem_opt {α : Type} {l : List α} {i : Nat} {a : α}
    (h : l[i]? = some a) : a ∈ l := by
  induction l generalizing i with
  | nil => simp at h
  | cons x xs ih =>
    cases i with
    | zero => simp at h; simp [h]
    | succ n =>
      rw [List.getElem?_cons_succ] at h
      exact List.mem_cons_of_mem _ (ih h)

/-- The FROM-relevant fields of a CC are smaller than the CC (for the
termination of the translation). -/
theorem sizeOf_computed_from_lt (cc : ConjoiningClauses) :
    sizeOf cc.computed_tables + sizeOf cc.from_ < sizeOf cc := by
  cases cc with
  | mk f ct cb w kt vb eb =>
    simp [ConjoiningClauses.computed_tables, ConjoiningClauses.from_]
    omega

mutual
/-- `cc_to_select_query`: build a `SelectQuery` for a CC.  The FROM clause
materializes each source alias (a computed index becomes its union);
the WHERE clause is the translated intersection; and the limit is
forced to `0` when the CC is known-empty (`empty_because` set),
overriding the requested limit. -/
def cc_to_select_query (projection : Projection) (cc : ConjoiningClauses)
    (distinct : Bool) (limit : Option Nat) : SelectQuery :=
  let fromClause :=
    if cc.from_.isEmpty then FromClause.Nothing
    else FromClause.TableList (tablesForFrom cc.computed_tables cc.from_)
  let limit := if cc.empty_because.isSome then some 0 else limit
  .mk distinct projection fromClause (ccoasToConstraints cc.wheres.constraints) limit
termination_by sizeOf cc
decreasing_by
  have := sizeOf_computed_from_lt cc
  omega
/-- The per-source-alias body of `cc_to_select_query`'s FROM construction
(`from.into_iter().map(...)`, with `ConsumableVec::take_dangerously`
modelled as plain indexing). -/
def tablesForFrom (computed : List ComputedTable) :
    List SourceAlias → List TableOrSubquery
  | [] => []
  | sa :: rest =>
    (match sa.table with
     | .Computed i =>
       match h : computed[i]? with
       | some comp => table_for_computed comp sa.alias_
       | none => .Table sa
     | _ => TableOrSubquery.Table sa) :: tablesForFrom computed rest
termination_by l => sizeOf computed + sizeOf l
decreasing_by
  all_goals
    first
      | (exact lt_of_lt_of_le (List.sizeOf_lt_of_mem (mem_of_getElem_opt h))
          (by omega))
      | simp
/-- `table_for_computed`: a union computed table becomes a
`TableOrSubquery::Union` of one non-distinct, unlimited sub-select per
arm, each projecting the union's variables. -/
def table_for_computed (computed : ComputedTable) (alias_ : TableAlias) :
    TableOrSubquery :=
  match computed with
  | .Union projection _type_extraction arms =>
    .Union (unionArms projection arms) alias_
termination_by sizeOf computed
decreasing_by
  simp
/-- The `arms.into_iter().map(...)` of `table_for_computed`. -/
def unionArms (projection : List Variable) :
    List ConjoiningClauses → List SelectQuery
  | [] => []
  | cc :: rest =>
    cc_to_select_query (.Columns (unionVarColumns projection cc)) cc false none
      :: unionArms projection rest
termination_by l => sizeOf l
decreasing_by
  all_goals (simp; try omega)
end

/-- `cc_to_exists`: `SELECT 1` limited to zero rows for a known-empty CC,
otherwise the CC's query with projection `1` and limit `1`. -/
def cc_to_exists (cc : ConjoiningClauses) : SelectQuery :=
  if cc.is_known_empty then
    .mk false .One .Nothing [] (some 0)
  else
    cc_to_select_query .One cc false (some 1)

/-! ## Claims -/

/-- Claim C4, counterexample: for the keyword `:foo/__bar` (name beginning
with two underscores), `to_reversed` strips one underscore each time, so
the double reversal yields `:foo/bar`, not the original keyword. -/
theorem c4_counterexample :
    (NamespacedKeyword.to_reversed
      (NamespacedKeyword.to_reversed ⟨"foo".toList, "__bar".toList⟩))
      ≠ ⟨"foo".toList, "__bar".toList⟩ := by
  decide

/-- Claim C4 (amended): `k.to_reversed().to_reversed() = k` for every
namespaced keyword whose name does not begin with two underscores; a
name with two or more leading underscores loses two of them instead. -/
theorem c4_to_reversed_to_reversed (ns name : Str)
    (h : name.take 2 ≠ ['_', '_']) :
    NamespacedKeyword.to_reversed (NamespacedKeyword.to_reversed ⟨ns, name⟩)
      = ⟨ns, name⟩ := by
  cases name with
  | nil => rfl
  | cons c rest =>
    by_cases hc : c = '_'
    · subst hc
      cases rest with
      | nil => rfl
      | cons d rest2 =>
        by_cases hd : d = '_'
        · subst hd
          simp at h
        · simp [NamespacedKeyword.to_reversed, NamespacedKeyword.is_backward, hd]
    · simp [NamespacedKeyword.to_reversed, NamespacedKeyword.is_backward, hc]

/-- Claim C4, witness: the amended round-trip at `:foo/_bar`. -/
theorem c4_witness :
    NamespacedKeyword.to_reversed (NamespacedKeyword.to_reversed ⟨"foo".toList, "_bar".toList⟩)
      = ⟨"foo".toList, "_bar".toList⟩ :=
  c4_to_reversed_to_reversed "foo".toList "_bar".toList (by decide)

theorem ValueTypeSet.pick_mem {s : Finset ValueType} (hs : s.Nonempty) :
    ValueTypeSet.pick s ∈ s := by
  obtain ⟨a, ha⟩ := hs
  unfold ValueTypeSet.pick
  cases hfind : allValueTypes.find? (fun t => decide (t ∈ s)) with
  | none =>
    have hnone := List.find?_eq_none.mp hfind a (mem_allValueTypes a)
    simp at hnone
    exact absurd ha hnone
  | some t =>
    have hsat := List.find?_some hfind
    simp at hsat
    simpa using hsat

theorem ValueTypeSet.pick_singleton (a : ValueType) :
    ValueTypeSet.pick {a} = a := by
  have := @ValueTypeSet.pick_mem {a} ⟨a, Finset.mem_singleton_self a⟩
  simpa using this

/-- The `Many`/`Many` renormalization of `intersection` is
membership-correct. -/
theorem ValueTypeSet.contains_canon (m : Finset ValueType) (t : ValueType) :
    (if m.card = 0 then ValueTypeSet.None
     else if m.card = 1 then ValueTypeSet.One (ValueTypeSet.pick m)
     else ValueTypeSet.Many m).contains t = decide (t ∈ m) := by
  by_cases h0 : m.card = 0
  · have : m = ∅ := Finset.card_eq_zero.mp h0
    subst this
    simp [h0, ValueTypeSet.contains]
  · by_cases h1 : m.card = 1
    · obtain ⟨a, ha⟩ := Finset.card_eq_one.mp h1
      subst ha
      simp [h0, h1, ValueTypeSet.contains, ValueTypeSet.pick_singleton]
      show decide (a = t) = decide (t = a)
      simp [eq_comm]
    · simp [h0, h1, ValueTypeSet.contains]

/-- Claim C10: `ValueTypeSet` intersection is membership-correct — a value
type is in `a.intersection(b)` exactly when it is in both `a` and `b` —
and consequently intersection is commutative and `Any` is its (two-sided)
identity. -/
theorem c10_valuetypeset_intersection :
    (∀ (a b : ValueTypeSet) (t : ValueType),
      (a.intersection b).contains t = (a.contains t && b.contains t))
    ∧ (∀ a b : ValueTypeSet, a.intersection b = b.intersection a)
    ∧ (∀ a : ValueTypeSet,
        ValueTypeSet.Any.intersection a = a ∧ a.intersection ValueTypeSet.Any = a) := by
  refine ⟨?_, ?_, ?_⟩
  · intro a b t
    cases a with
    | None => cases b <;> simp [ValueTypeSet.intersection, ValueTypeSet.contains]
    | Any => cases b <;> simp [ValueTypeSet.intersection, ValueTypeSet.contains]
    | One u =>
      cases b with
      | None => simp [ValueTypeSet.intersection, ValueTypeSet.contains]
      | Any => simp [ValueTypeSet.intersection, ValueTypeSet.contains]
      | One v =>
        by_cases huv : v = u <;> by_cases hut : u = t <;>
          simp [ValueTypeSet.intersection, ValueTypeSet.contains, huv, hut] <;>
          subst_eqs <;> simp_all
      | Many m =>
        by_cases hm : u ∈ m <;> by_cases hut : u = t <;>
          simp [ValueTypeSet.intersection, ValueTypeSet.contains, hm, hut] <;>
          subst_eqs <;> simp_all
    | Many l =>
      cases b with
      | None => simp [ValueTypeSet.intersection, ValueTypeSet.contains]
      | Any => simp [ValueTypeSet.intersection, ValueTypeSet.contains]
      | One v =>
        by_cases hm : v ∈ l <;> by_cases hvt : v = t <;>
          simp [ValueTypeSet.intersection, ValueTypeSet.contains, hm, hvt] <;>
          subst_eqs <;> simp_all
      | Many r =>
        show (if (l ∩ r).card = 0 then ValueTypeSet.None
              else if (l ∩ r).card = 1 then ValueTypeSet.One (ValueTypeSet.pick (l ∩ r))
              else ValueTypeSet.Many (l ∩ r)).contains t = _
        rw [ValueTypeSet.contains_canon]
        simp [ValueTypeSet.contains, Finset.mem_inter]
  · intro a b
    cases a with
    | None => cases b <;> rfl
    | Any => cases b <;> rfl
    | One u =>
      cases b with
      | None => rfl
      | Any => rfl
      | One v =>
        by_cases huv : v = u
        · subst huv
          rfl
        · have hvu : ¬ u = v := fun hh => huv hh.symm
          simp [ValueTypeSet.intersection, ValueTypeSet.contains, huv, hvu]
      | Many m => rfl
    | Many l =>
      cases b with
      | None => rfl
      | Any => rfl
      | One v => rfl
      | Many r =>
        simp only [ValueTypeSet.intersection]
        rw [Finset.inter_comm]
  · intro a
    constructor
    · cases a <;> rfl
    · cases a <;> rfl

/-- Claim C2: translating `Equals(qa, PrimitiveLong(v))` yields the
conjunction `qa = v AND qa.value_type_tag <> boolean-tag` exactly when
`v` is in boolean range (0 or 1), and the bare equality `qa = v` for
every other `v`. -/
theorem c2_primitive_long_boolean_guard (qa : QualifiedAlias) (v : Int) :
    (ColumnConstraint.Equals qa (.PrimitiveLong v)).to_constraint =
      (if v = 0 ∨ v = 1 then
        Constraint.And
          [Constraint.equal (.Column qa) (.Value (.Long v)),
           Constraint.not_equal (.Column qa.for_type_tag)
             (.Integer ValueType.Boolean.value_type_tag)]
      else
        Constraint.equal (.Column qa) (.Value (.Long v))) := by
  by_cases h : v = 0 ∨ v = 1
  · have hb : ValueType.Boolean.accommodates_integer v = true := by
      rcases h with h | h <;> subst h <;> rfl
    simp [ColumnConstraint.to_constraint, hb, h]
  · have hb : ValueType.Boolean.accommodates_integer v = false := by
      push_neg at h
      simp [ValueType.accommodates_integer, h.1, h.2]
    push_neg at h
    simp [ColumnConstraint.to_constraint, hb, h.1, h.2]

/-- Claim C7: `push_bind_param` fails with `InvalidParameterName` exactly
when the name contains a character that is neither alphanumeric nor an
underscore; an accepted-charset name matching the generated pattern (the
builder's prefix followed by only digits) fails with
`BindParamCouldBeGenerated`; any other accepted name is emitted as `$`
followed by the name. -/
theorem c7_push_bind_param_charset (b : SQLiteQueryBuilder) (name : Str) :
    (b.push_bind_param name = .error (.InvalidParameterName name)
       ↔ ¬ name.all (fun c => c.isAlphanum || c == '_') = true)
    ∧ (name.all (fun c => c.isAlphanum || c == '_') = true →
        (b.arg_stem.isPrefixOf name
          && (name.drop b.arg_stem.length).all Char.isDigit) = true →
        b.push_bind_param name = .error (.BindParamCouldBeGenerated name))
    ∧ (name.all (fun c => c.isAlphanum || c == '_') = true →
        (b.arg_stem.isPrefixOf name
          && (name.drop b.arg_stem.length).all Char.isDigit) = false →
        b.push_bind_param name = .ok { b with sql := b.sql ++ '$' :: name }) := by
  by_cases h1 : name.all (fun c => c.isAlphanum || c == '_') = true
  · by_cases h2 : (b.arg_stem.isPrefixOf name
        && (name.drop b.arg_stem.length).all Char.isDigit) = true
    · refine ⟨?_, fun _ _ => ?_, fun _ hcontra => ?_⟩
      · simp [SQLiteQueryBuilder.push_bind_param, h1, h2]
      · simp [SQLiteQueryBuilder.push_bind_param, h1, h2]
      · rw [h2] at hcontra
        exact absurd hcontra (by simp)
    · have h2f : (b.arg_stem.isPrefixOf name
          && (name.drop b.arg_stem.length).all Char.isDigit) = false :=
        Bool.eq_false_iff.mpr h2
      refine ⟨?_, fun _ hcontra => ?_, fun _ _ => ?_⟩
      · simp [SQLiteQueryBuilder.push_bind_param, h1, h2f]
      · rw [h2f] at hcontra
        exact absurd hcontra (by simp)
      · simp [SQLiteQueryBuilder.push_bind_param, SQLiteQueryBuilder.push_sql, h1, h2f]
  · have h1f : name.all (fun c => c.isAlphanum || c == '_') = false :=
      Bool.eq_false_iff.mpr h1
    refine ⟨?_, fun hcontra => ?_, fun hcontra => ?_⟩
    · simp [SQLiteQueryBuilder.push_bind_param, h1f]
    · rw [h1f] at hcontra
      exact absurd hcontra (by simp)
    · rw [h1f] at hcontra
      exact absurd hcontra (by simp)

/-- Claim C7, witness: on a builder with prefix `v`, the accepted-charset
name `v0` collides with the generated pattern. -/
theorem c7_witness :
    (SQLiteQueryBuilder.with_stem ['v']).push_bind_param ['v', '0']
      = .error (.BindParamCouldBeGenerated ['v', '0']) :=
  (c7_push_bind_param_charset (SQLiteQueryBuilder.with_stem ['v']) ['v', '0']).2.1
    (by decide) (by decide)

/-- Claim C9: for every builder state, the argument list returned by
`finish` is sorted ascending by placeholder name (the byte-lexicographic
string order, under which `$v0` precedes `$v1` and `$v1` precedes
`$v10`). -/
theorem c9_finish_args_sorted (b : SQLiteQueryBuilder) :
    List.Sorted argNameLe b.finish.args
      ∧ lexLe ['$', 'v', '0'] ['$', 'v', '1'] = true
      ∧ lexLe ['$', 'v', '1'] ['$', 'v', '1', '0'] = true := by
  refine ⟨?_, by decide, by decide⟩
  show List.Sorted argNameLe (List.insertionSort argNameLe _)
  exact List.sorted_insertionSort argNameLe _

/-- The result claim C6 describes, written from its words: a positive
integer yields `Limit::Fixed`; a variable in `:in` yields
`Limit::Variable`; a variable absent from `:in` is rejected with
`UnknownLimitVar`; a zero or negative integer or any non-integer,
non-variable value is rejected with `InvalidLimit`. -/
def limitSpecResult (v : EdnValue) (in_vars : List Variable) :
    Except QueryParseError Limit :=
  match v with
  | .PlainSym s =>
    if s.is_var_symbol then
      if in_vars.contains ⟨s⟩ then .ok (.Variable ⟨s⟩)
      else .error (.UnknownLimitVar (Variable.mk s).name)
    else .error (.InvalidLimit (.PlainSym s))
  | .Integer x =>
    if x > 0 then .ok (.Fixed x.toNat) else .error (.InvalidLimit (.Integer x))
  | other => .error (.InvalidLimit other)

/-- Claim C6: parsing `:limit` succeeds exactly when the value is a
positive integer (`Limit::Fixed`) or a variable appearing in `:in`
(`Limit::Variable`); zero, negative and non-integer literals are
rejected with `InvalidLimit`, and a limit variable absent from `:in` is
rejected with `UnknownLimitVar`. -/
theorem c6_limit_parsing (v : EdnValue) (in_vars : List Variable) :
    parseQueryLimit v in_vars = limitSpecResult v in_vars := by
  cases v with
  | Integer x =>
    by_cases hx : x > 0 <;>
      simp only [parseQueryLimit, parseLimit, limitSpecResult, Variable.from_value,
        Query.natural_number, hx, if_true, if_false, Except.map] <;> rfl
  | PlainSym s =>
    by_cases hv : s.is_var_symbol = true
    · simp only [parseQueryLimit, parseLimit, limitSpecResult, Variable.from_value,
        Variable.from_symbol, hv, if_true]
      rfl
    · have hv' : s.is_var_symbol = false := Bool.eq_false_iff.mpr hv
      simp only [parseQueryLimit, parseLimit, limitSpecResult, Variable.from_value,
        Variable.from_symbol, Query.natural_number, hv', Bool.false_eq_true, if_false,
        Except.map]
      rfl
  | Text s => rfl
  | Boolean b => rfl
  | NamespacedKw k => rfl

/-- Claim C3, counterexample: the claimed equivalence fails when the base
attribute name itself begins with an underscore.  With `a = "_bar"` and a
placeholder entity, `[_ :foo/__bar ?y]` parses (to a pattern with
attribute `:foo/_bar`), while `[?y :foo/_bar _]` is itself a reversed
pattern with a non-variable value and is a parse error. -/
theorem c3_counterexample :
    Pattern.new Option.none .Placeholder
        (.Ident ⟨"foo".toList, "__bar".toList⟩)
        (.Variable ⟨⟨"?y".toList⟩⟩) .Placeholder
      ≠ Pattern.new Option.none (.Variable ⟨⟨"?y".toList⟩⟩)
          (.Ident ⟨"foo".toList, "_bar".toList⟩)
          (PatternNonValuePlace.Placeholder).to_pattern_value_place .Placeholder := by
  intro h
  exact Option.noConfusion h

/-- Claim C3 (amended): for every attribute name `a` that does not itself
begin with `_`, parsing `[e :ns/_a ?y]` builds the same pattern as
parsing `[?y :ns/a e]` (entity and value swapped, attribute
un-reversed); and a pattern whose attribute is reversed but whose value
position is not a variable is a parse error (`Pattern::new` returns
`None`). -/
theorem c3_pattern_reversal :
    (∀ (src : Option SrcVar) (e tx : PatternNonValuePlace) (ns a : Str)
        (y : Variable), a.head? ≠ some '_' →
      Pattern.new src e (.Ident ⟨ns, '_' :: a⟩) (.Variable y) tx
        = Pattern.new src (.Variable y) (.Ident ⟨ns, a⟩)
            e.to_pattern_value_place tx)
    ∧ (∀ (src : Option SrcVar) (e tx : PatternNonValuePlace)
        (k : NamespacedKeyword) (v : PatternValuePlace),
        k.is_backward = true → (∀ y, v ≠ .Variable y) →
        Pattern.new src e (.Ident k) v tx = Option.none) := by
  constructor
  · intro src e tx ns a y h
    have hback : NamespacedKeyword.is_backward ⟨ns, '_' :: a⟩ = true := by
      simp [NamespacedKeyword.is_backward]
    have hfwd : NamespacedKeyword.is_backward ⟨ns, a⟩ = false := by
      simp [NamespacedKeyword.is_backward]
      intro hcontra
      exact h (by simp [hcontra])
    simp [Pattern.new, hback, hfwd, NamespacedKeyword.to_reversed]
  · intro src e tx k v hback hnv
    cases v with
    | Variable y => exact absurd rfl (hnv y)
    | Placeholder => simp [Pattern.new, hback]
    | EntidOrInteger i => simp [Pattern.new, hback]
    | IdentOrKeyword kk => simp [Pattern.new, hback]
    | Constant c => simp [Pattern.new, hback]

/-- Claim C3, witness: the amended equivalence at `[_ :foo/_bar ?y]`
versus `[?y :foo/bar _]`, and the parse failure at
`[_ :foo/_bar true]`. -/
theorem c3_witness :
    (Pattern.new Option.none .Placeholder
        (.Ident ⟨"foo".toList, "_bar".toList⟩)
        (.Variable ⟨⟨"?y".toList⟩⟩) .Placeholder
      = Pattern.new Option.none (.Variable ⟨⟨"?y".toList⟩⟩)
          (.Ident ⟨"foo".toList, "bar".toList⟩)
          (PatternNonValuePlace.Placeholder).to_pattern_value_place .Placeholder)
    ∧ Pattern.new Option.none .Placeholder
        (.Ident ⟨"foo".toList, "_bar".toList⟩)
        (.Constant (.Boolean true)) .Placeholder = Option.none :=
  ⟨c3_pattern_reversal.1 Option.none .Placeholder .Placeholder
      "foo".toList "bar".toList ⟨⟨"?y".toList⟩⟩ (by decide),
   c3_pattern_reversal.2 Option.none .Placeholder .Placeholder
      ⟨"foo".toList, "_bar".toList⟩ (.Constant (.Boolean true))
      (by decide) (fun y hy => by cases hy)⟩

/-- The non-numeric, non-variable arguments of claim C8: keyword, source
var, boolean, text, uuid, instant, big integer, or vector. -/
def FnArg.is_non_numeric_constant : FnArg → Bool
  | .IdentOrKeyword _ => true
  | .SrcVar _ => true
  | .Constant (.Boolean _) => true
  | .Constant (.Text _) => true
  | .Constant (.Uuid _) => true
  | .Constant (.Instant _) => true
  | .Constant (.BigInteger _) => true
  | .Vector _ => true
  | .Variable _ => false
  | .EntidOrInteger _ => false
  | .Constant (.Float _) => false

/-- Claim C8, counterexample: on a fresh (not-yet-empty) CC, resolving the
non-numeric constant `true` in a numeric position does not leave the CC
unchanged — it marks it known-empty (`empty_because` becomes
`NonNumericArgument`). -/
theorem c8_counterexample :
    (ConjoiningClauses.resolve_numeric_argument
        (.mk [] [] [] (.mk []) [] [] Option.none) ⟨"<".toList⟩ 0
        (.Constant (.Boolean true))).2
      ≠ ConjoiningClauses.mk [] [] [] (.mk []) [] [] Option.none := by
  intro h
  have h2 := congrArg ConjoiningClauses.empty_because h
  exact Option.noConfusion h2

/-- Claim C8 (amended): for every CC and every non-numeric constant
argument, `resolve_numeric_argument` returns
`InvalidArgument(function, "numeric", position)` and the CC afterwards is
the input CC marked known-empty with `NonNumericArgument`: if
`empty_because` was unset it is now set to `NonNumericArgument`, and every
other field is unchanged. -/
theorem c8_resolve_numeric_error (cc : ConjoiningClauses) (f : PlainSymbol)
    (pos : Nat) (arg : FnArg) (h : arg.is_non_numeric_constant = true) :
    cc.resolve_numeric_argument f pos arg
      = (.error (.InvalidArgument f "numeric".toList pos),
         cc.mark_known_empty .NonNumericArgument)
    ∧ (cc.empty_because = Option.none →
        (cc.mark_known_empty .NonNumericArgument).empty_because
          = some .NonNumericArgument)
    ∧ (cc.mark_known_empty .NonNumericArgument).from_ = cc.from_
    ∧ (cc.mark_known_empty .NonNumericArgument).computed_tables = cc.computed_tables
    ∧ (cc.mark_known_empty .NonNumericArgument).column_bindings = cc.column_bindings
    ∧ (cc.mark_known_empty .NonNumericArgument).wheres = cc.wheres
    ∧ (cc.mark_known_empty .NonNumericArgument).known_types = cc.known_types
    ∧ (cc.mark_known_empty .NonNumericArgument).value_bindings = cc.value_bindings := by
  have hfields : ∀ why : EmptyBecause,
      (cc.mark_known_empty why).from_ = cc.from_
      ∧ (cc.mark_known_empty why).computed_tables = cc.computed_tables
      ∧ (cc.mark_known_empty why).column_bindings = cc.column_bindings
      ∧ (cc.mark_known_empty why).wheres = cc.wheres
      ∧ (cc.mark_known_empty why).known_types = cc.known_types
      ∧ (cc.mark_known_empty why).value_bindings = cc.value_bindings := by
    intro why
    cases cc with
    | mk fr ct cb w kt vb eb =>
      cases eb <;>
        simp [ConjoiningClauses.mark_known_empty, ConjoiningClauses.empty_because,
          ConjoiningClauses.with_empty_because, ConjoiningClauses.from_,
          ConjoiningClauses.computed_tables, ConjoiningClauses.column_bindings,
          ConjoiningClauses.wheres, ConjoiningClauses.known_types,
          ConjoiningClauses.value_bindings]
  have hset : cc.empty_because = Option.none →
      (cc.mark_known_empty .NonNumericArgument).empty_because
        = some .NonNumericArgument := by
    intro hnone
    cases cc with
    | mk fr ct cb w kt vb eb =>
      have : eb = Option.none := hnone
      subst this
      rfl
  have hres : cc.resolve_numeric_argument f pos arg
      = (.error (.InvalidArgument f "numeric".toList pos),
         cc.mark_known_empty .NonNumericArgument) := by
    cases arg with
    | Variable v => simp [FnArg.is_non_numeric_constant] at h
    | EntidOrInteger i => simp [FnArg.is_non_numeric_constant] at h
    | SrcVar s => rfl
    | IdentOrKeyword k => rfl
    | Vector args => rfl
    | Constant c =>
      cases c with
      | Float fl => simp [FnArg.is_non_numeric_constant] at h
      | Boolean b => rfl
      | BigInteger i => rfl
      | Text s => rfl
      | Instant i => rfl
      | Uuid u => rfl
  obtain ⟨p1, p2, p3, p4, p5, p6⟩ := hfields .NonNumericArgument
  exact ⟨hres, hset, p1, p2, p3, p4, p5, p6⟩

/-- Claim C8, witness: the amended behaviour at a concrete fresh CC and
the argument `true`. -/
theorem c8_witness :
    (ConjoiningClauses.resolve_numeric_argument
        (.mk [] [] [] (.mk []) [] [] Option.none) ⟨"<".toList⟩ 0
        (.Constant (.Boolean true)))
      = (.error (.InvalidArgument ⟨"<".toList⟩ "numeric".toList 0),
         (ConjoiningClauses.mk [] [] [] (.mk []) [] []
            Option.none).mark_known_empty .NonNumericArgument)
    ∧ ((ConjoiningClauses.mk [] [] [] (.mk []) [] []
          Option.none).mark_known_empty .NonNumericArgument).empty_because
        = some .NonNumericArgument :=
  let t := c8_resolve_numeric_error
    (.mk [] [] [] (.mk []) [] [] Option.none) ⟨"<".toList⟩ 0
    (.Constant (.Boolean true)) (by decide)
  ⟨t.1, t.2.1 rfl⟩

/-- Claim C1: for a known-empty CC, `cc_to_exists` is exactly
`SELECT 1` with no FROM, no constraints and `LIMIT 0`; and whenever
`empty_because` is set, `cc_to_select_query` forces the limit to `0`
regardless of the requested limit. -/
theorem c1_known_empty_short_circuit :
    (∀ cc : ConjoiningClauses, cc.is_known_empty = true →
      cc_to_exists cc = .mk false .One .Nothing [] (some 0))
    ∧ (∀ (projection : Projection) (cc : ConjoiningClauses) (distinct : Bool)
        (limit : Option Nat), cc.empty_because.isSome = true →
        (cc_to_select_query projection cc distinct limit).limit = some 0) := by
  constructor
  · intro cc h
    simp [cc_to_exists, h]
  · intro projection cc distinct limit h
    rw [cc_to_select_query]
    simp [SelectQuery.limit, h]

/-- Claim C1, witness: a concrete known-empty CC, with requested limit 5
still emitted as limit 0. -/
theorem c1_witness :
    (ConjoiningClauses.mk [] [] [] (.mk []) [] []
        (some .AttributeLookupFailed)).is_known_empty = true
    ∧ cc_to_exists (.mk [] [] [] (.mk []) [] [] (some .AttributeLookupFailed))
        = .mk false .One .Nothing [] (some 0)
    ∧ (cc_to_select_query .Star
          (.mk [] [] [] (.mk []) [] [] (some .AttributeLookupFailed))
          true (some 5)).limit = some 0 :=
  ⟨rfl,
   c1_known_empty_short_circuit.1
     (.mk [] [] [] (.mk []) [] [] (some .AttributeLookupFailed)) rfl,
   c1_known_empty_short_circuit.2 .Star
     (.mk [] [] [] (.mk []) [] [] (some .AttributeLookupFailed)) true (some 5) rfl⟩

/-- Whether a typed value is a keyword (each keyword push adds one static,
non-deduplicated argument). -/
def TypedValue.is_keyword : TypedValue → Bool
  | .Keyword _ => true
  | _ => false

/-- Push a sequence of typed values through the builder. -/
def pushValues (b : SQLiteQueryBuilder) (vs : List TypedValue) : SQLiteQueryBuilder :=
  vs.foldl SQLiteQueryBuilder.push_typed_value b

/-- The string payloads of a sequence of typed values. -/
def stringsOf (vs : List TypedValue) : List Str :=
  vs.filterMap (fun v => match v with | .String s => some s | _ => none)

/-- The UUID payloads of a sequence of typed values. -/
def uuidsOf (vs : List TypedValue) : List Uuid :=
  vs.filterMap (fun v => match v with | .Uuid u => some u | _ => none)

/-- The number of keyword pushes in a sequence of typed values. -/
def keywordCount (vs : List TypedValue) : Nat :=
  vs.countP (fun v => v.is_keyword)

theorem args_length_push (b : SQLiteQueryBuilder) (v : TypedValue) :
    (b.push_typed_value v).args.length
      = b.args.length + (if v.is_keyword then 1 else 0) := by
  cases v with
  | Keyword k =>
    simp [SQLiteQueryBuilder.push_typed_value, SQLiteQueryBuilder.push_static_arg,
      SQLiteQueryBuilder.push_named_arg, SQLiteQueryBuilder.push_sql,
      SQLiteQueryBuilder.next_argument_name, TypedValue.is_keyword]
  | String s =>
    cases hfind : b.string_args.find? (fun p => p.1 == s) <;>
      simp [SQLiteQueryBuilder.push_typed_value, hfind,
        SQLiteQueryBuilder.push_named_arg, SQLiteQueryBuilder.push_sql,
        SQLiteQueryBuilder.next_argument_name, TypedValue.is_keyword]
  | Uuid u =>
    cases hfind : b.uuid_args.find? (fun p => p.1 == u) <;>
      simp [SQLiteQueryBuilder.push_typed_value, hfind,
        SQLiteQueryBuilder.push_named_arg, SQLiteQueryBuilder.push_sql,
        SQLiteQueryBuilder.next_argument_name, TypedValue.is_keyword]
  | Ref e =>
    simp [SQLiteQueryBuilder.push_typed_value, SQLiteQueryBuilder.push_sql,
      TypedValue.is_keyword]
  | Boolean bo =>
    simp [SQLiteQueryBuilder.push_typed_value, SQLiteQueryBuilder.push_sql,
      TypedValue.is_keyword]
  | Long l =>
    simp [SQLiteQueryBuilder.push_typed_value, SQLiteQueryBuilder.push_sql,
      TypedValue.is_keyword]
  | Double d =>
    simp [SQLiteQueryBuilder.push_typed_value, SQLiteQueryBuilder.push_sql,
      TypedValue.is_keyword]
  | Instant i =>
    simp [SQLiteQueryBuilder.push_typed_value, SQLiteQueryBuilder.push_sql,
      TypedValue.is_keyword]

theorem mem_string_keys_push (b : SQLiteQueryBuilder) (v : TypedValue) (x : Str) :
    x ∈ (b.push_typed_value v).string_args.map Prod.fst
      ↔ x ∈ b.string_args.map Prod.fst ∨ v = .String x := by
  cases v with
  | String s =>
    cases hfind : b.string_args.find? (fun p => p.1 == s) with
    | none =>
      simp [SQLiteQueryBuilder.push_typed_value, hfind,
        SQLiteQueryBuilder.push_named_arg, SQLiteQueryBuilder.push_sql,
        SQLiteQueryBuilder.next_argument_name, eq_comm]
    | some p =>
      have hp : p ∈ b.string_args := List.mem_of_find?_eq_some hfind
      have hps : p.1 = s := by
        have := List.find?_some hfind
        simpa using this
      have hsmem : s ∈ b.string_args.map Prod.fst :=
        List.mem_map.mpr ⟨p, hp, hps⟩
      simp only [SQLiteQueryBuilder.push_typed_value, hfind,
        SQLiteQueryBuilder.push_named_arg, SQLiteQueryBuilder.push_sql,
        TypedValue.String.injEq]
      constructor
      · intro hx
        exact Or.inl hx
      · rintro (hx | hx)
        · exact hx
        · subst hx
          exact hsmem
  | Uuid u =>
    cases hfind : b.uuid_args.find? (fun p => p.1 == u) <;>
      simp [SQLiteQueryBuilder.push_typed_value, hfind,
        SQLiteQueryBuilder.push_named_arg, SQLiteQueryBuilder.push_sql,
        SQLiteQueryBuilder.next_argument_name]
  | Keyword k =>
    simp [SQLiteQueryBuilder.push_typed_value, SQLiteQueryBuilder.push_static_arg,
      SQLiteQueryBuilder.push_named_arg, SQLiteQueryBuilder.push_sql,
      SQLiteQueryBuilder.next_argument_name]
  | Ref e => simp [SQLiteQueryBuilder.push_typed_value, SQLiteQueryBuilder.push_sql]
  | Boolean bo => simp [SQLiteQueryBuilder.push_typed_value, SQLiteQueryBuilder.push_sql]
  | Long l => simp [SQLiteQueryBuilder.push_typed_value, SQLiteQueryBuilder.push_sql]
  | Double d => simp [SQLiteQueryBuilder.push_typed_value, SQLiteQueryBuilder.push_sql]
  | Instant i => simp [SQLiteQueryBuilder.push_typed_value, SQLiteQueryBuilder.push_sql]

theorem mem_uuid_keys_push (b : SQLiteQueryBuilder) (v : TypedValue) (x : Uuid) :
    x ∈ (b.push_typed_value v).uuid_args.map Prod.fst
      ↔ x ∈ b.uuid_args.map Prod.fst ∨ v = .Uuid x := by
  cases v with
  | Uuid u =>
    cases hfind : b.uuid_args.find? (fun p => p.1 == u) with
    | none =>
      simp [SQLiteQueryBuilder.push_typed_value, hfind,
        SQLiteQueryBuilder.push_named_arg, SQLiteQueryBuilder.push_sql,
        SQLiteQueryBuilder.next_argument_name, eq_comm]
    | some p =>
      have hp : p ∈ b.uuid_args := List.mem_of_find?_eq_some hfind
      have hps : p.1 = u := by
        have := List.find?_some hfind
        simpa using this
      have humem : u ∈ b.uuid_args.map Prod.fst :=
        List.mem_map.mpr ⟨p, hp, hps⟩
      simp only [SQLiteQueryBuilder.push_typed_value, hfind,
        SQLiteQueryBuilder.push_named_arg, SQLiteQueryBuilder.push_sql,
        TypedValue.Uuid.injEq]
      constructor
      · intro hx
        exact Or.inl hx
      · rintro (hx | hx)
        · exact hx
        · subst hx
          exact humem
  | String s =>
    cases hfind : b.string_args.find? (fun p => p.1 == s) <;>
      simp [SQLiteQueryBuilder.push_typed_value, hfind,
        SQLiteQueryBuilder.push_named_arg, SQLiteQueryBuilder.push_sql,
        SQLiteQueryBuilder.next_argument_name]
  | Keyword k =>
    simp [SQLiteQueryBuilder.push_typed_value, SQLiteQueryBuilder.push_static_arg,
      SQLiteQueryBuilder.push_named_arg, SQLiteQueryBuilder.push_sql,
      SQLiteQueryBuilder.next_argument_name]
  | Ref e => simp [SQLiteQueryBuilder.push_typed_value, SQLiteQueryBuilder.push_sql]
  | Boolean bo => simp [SQLiteQueryBuilder.push_typed_value, SQLiteQueryBuilder.push_sql]
  | Long l => simp [SQLiteQueryBuilder.push_typed_value, SQLiteQueryBuilder.push_sql]
  | Double d => simp [SQLiteQueryBuilder.push_typed_value, SQLiteQueryBuilder.push_sql]
  | Instant i => simp [SQLiteQueryBuilder.push_typed_value, SQLiteQueryBuilder.push_sql]

theorem nodup_string_keys_push (b : SQLiteQueryBuilder) (v : TypedValue)
    (h : (b.string_args.map Prod.fst).Nodup) :
    ((b.push_typed_value v).string_args.map Prod.fst).Nodup := by
  cases v with
  | String s =>
    cases hfind : b.string_args.find? (fun p => p.1 == s) with
    | none =>
      have hnot : s ∉ b.string_args.map Prod.fst := by
        intro hmem
        obtain ⟨p, hp, hps⟩ := List.mem_map.mp hmem
        have := List.find?_eq_none.mp hfind p hp
        simp [hps] at this
      simp [SQLiteQueryBuilder.push_typed_value, hfind,
        SQLiteQueryBuilder.push_named_arg, SQLiteQueryBuilder.push_sql,
        SQLiteQueryBuilder.next_argument_name, List.nodup_append, h, hnot]
    | some p =>
      simpa [SQLiteQueryBuilder.push_typed_value, hfind,
        SQLiteQueryBuilder.push_named_arg, SQLiteQueryBuilder.push_sql] using h
  | Uuid u =>
    cases hfind : b.uuid_args.find? (fun p => p.1 == u) <;>
      simpa [SQLiteQueryBuilder.push_typed_value, hfind,
        SQLiteQueryBuilder.push_named_arg, SQLiteQueryBuilder.push_sql,
        SQLiteQueryBuilder.next_argument_name] using h
  | Keyword k =>
    simpa [SQLiteQueryBuilder.push_typed_value, SQLiteQueryBuilder.push_static_arg,
      SQLiteQueryBuilder.push_named_arg, SQLiteQueryBuilder.push_sql,
      SQLiteQueryBuilder.next_argument_name] using h
  | Ref e =>
    simpa [SQLiteQueryBuilder.push_typed_value, SQLiteQueryBuilder.push_sql] using h
  | Boolean bo =>
    simpa [SQLiteQueryBuilder.push_typed_value, SQLiteQueryBuilder.push_sql] using h
  | Long l =>
    simpa [SQLiteQueryBuilder.push_typed_value, SQLiteQueryBuilder.push_sql] using h
  | Double d =>
    simpa [SQLiteQueryBuilder.push_typed_value, SQLiteQueryBuilder.push_sql] using h
  | Instant i =>
    simpa [SQLiteQueryBuilder.push_typed_value, SQLiteQueryBuilder.push_sql] using h

theorem nodup_uuid_keys_push (b : SQLiteQueryBuilder) (v : TypedValue)
    (h : (b.uuid_args.map Prod.fst).Nodup) :
    ((b.push_typed_value v).uuid_args.map Prod.fst).Nodup := by
  cases v with
  | Uuid u =>
    cases hfind : b.uuid_args.find? (fun p => p.1 == u) with
    | none =>
      have hnot : u ∉ b.uuid_args.map Prod.fst := by
        intro hmem
        obtain ⟨p, hp, hps⟩ := List.mem_map.mp hmem
        have := List.find?_eq_none.mp hfind p hp
        simp [hps] at this
      simp [SQLiteQueryBuilder.push_typed_value, hfind,
        SQLiteQueryBuilder.push_named_arg, SQLiteQueryBuilder.push_sql,
        SQLiteQueryBuilder.next_argument_name, List.nodup_append, h, hnot]
    | some p =>
      simpa [SQLiteQueryBuilder.push_typed_value, hfind,
        SQLiteQueryBuilder.push_named_arg, SQLiteQueryBuilder.push_sql] using h
  | String s =>
    cases hfind : b.string_args.find? (fun p => p.1 == s) <;>
      simpa [SQLiteQueryBuilder.push_typed_value, hfind,
        SQLiteQueryBuilder.push_named_arg, SQLiteQueryBuilder.push_sql,
        SQLiteQueryBuilder.next_argument_name] using h
  | Keyword k =>
    simpa [SQLiteQueryBuilder.push_typed_value, SQLiteQueryBuilder.push_static_arg,
      SQLiteQueryBuilder.push_named_arg, SQLiteQueryBuilder.push_sql,
      SQLiteQueryBuilder.next_argument_name] using h
  | Ref e =>
    simpa [SQLiteQueryBuilder.push_typed_value, SQLiteQueryBuilder.push_sql] using h
  | Boolean bo =>
    simpa [SQLiteQueryBuilder.push_typed_value, SQLiteQueryBuilder.push_sql] using h
  | Long l =>
    simpa [SQLiteQueryBuilder.push_typed_value, SQLiteQueryBuilder.push_sql] using h
  | Double d =>
    simpa [SQLiteQueryBuilder.push_typed_value, SQLiteQueryBuilder.push_sql] using h
  | Instant i =>
    simpa [SQLiteQueryBuilder.push_typed_value, SQLiteQueryBuilder.push_sql] using h

theorem pushValues_args_length (vs : List TypedValue) (b : SQLiteQueryBuilder) :
    (pushValues b vs).args.length = b.args.length + keywordCount vs := by
  induction vs generalizing b with
  | nil => simp [pushValues, keywordCount]
  | cons v rest ih =>
    show (pushValues (b.push_typed_value v) rest).args.length = _
    rw [ih, args_length_push]
    simp only [keywordCount, List.countP_cons]
    by_cases hk : v.is_keyword <;> simp [hk] <;> omega

theorem pushValues_mem_string_keys (vs : List TypedValue) (b : SQLiteQueryBuilder)
    (x : Str) :
    x ∈ (pushValues b vs).string_args.map Prod.fst
      ↔ x ∈ b.string_args.map Prod.fst ∨ x ∈ stringsOf vs := by
  induction vs generalizing b with
  | nil => simp [pushValues, stringsOf]
  | cons v rest ih =>
    show x ∈ (pushValues (b.push_typed_value v) rest).string_args.map Prod.fst ↔ _
    rw [ih, mem_string_keys_push]
    cases v <;> simp [stringsOf, List.filterMap_cons] <;> tauto

theorem pushValues_mem_uuid_keys (vs : List TypedValue) (b : SQLiteQueryBuilder)
    (x : Uuid) :
    x ∈ (pushValues b vs).uuid_args.map Prod.fst
      ↔ x ∈ b.uuid_args.map Prod.fst ∨ x ∈ uuidsOf vs := by
  induction vs generalizing b with
  | nil => simp [pushValues, uuidsOf]
  | cons v rest ih =>
    show x ∈ (pushValues (b.push_typed_value v) rest).uuid_args.map Prod.fst ↔ _
    rw [ih, mem_uuid_keys_push]
    cases v <;> simp [uuidsOf, List.filterMap_cons] <;> tauto

theorem pushValues_nodup_string_keys (vs : List TypedValue) (b : SQLiteQueryBuilder)
    (h : (b.string_args.map Prod.fst).Nodup) :
    ((pushValues b vs).string_args.map Prod.fst).Nodup := by
  induction vs generalizing b with
  | nil => simpa [pushValues] using h
  | cons v rest ih =>
    exact ih (b.push_typed_value v) (nodup_string_keys_push b v h)

theorem pushValues_nodup_uuid_keys (vs : List TypedValue) (b : SQLiteQueryBuilder)
    (h : (b.uuid_args.map Prod.fst).Nodup) :
    ((pushValues b vs).uuid_args.map Prod.fst).Nodup := by
  induction vs generalizing b with
  | nil => simpa [pushValues] using h
  | cons v rest ih =>
    exact ih (b.push_typed_value v) (nodup_uuid_keys_push b v h)

theorem finish_args_length (b : SQLiteQueryBuilder) :
    b.finish.args.length
      = b.args.length + b.string_args.length + b.uuid_args.length := by
  simp [SQLiteQueryBuilder.finish, List.length_insertionSort]
  omega

/-- Claim C5, counterexample: pushing the same keyword twice produces two
placeholder arguments while referencing zero distinct string/UUID
values, so the total argument count is not the number of distinct
string/UUID values. -/
theorem c5_counterexample :
    (pushValues SQLiteQueryBuilder.new
        [.Keyword ⟨"foo".toList, "bar".toList⟩,
         .Keyword ⟨"foo".toList, "bar".toList⟩]).finish.args.length = 2
    ∧ (stringsOf [TypedValue.Keyword ⟨"foo".toList, "bar".toList⟩,
          TypedValue.Keyword ⟨"foo".toList, "bar".toList⟩]).toFinset.card
        + (uuidsOf [TypedValue.Keyword ⟨"foo".toList, "bar".toList⟩,
            TypedValue.Keyword ⟨"foo".toList, "bar".toList⟩]).toFinset.card = 0 := by
  constructor
  · rfl
  · rfl

/-- Claim C5 (amended): after pushing any sequence of typed values through
a fresh builder, the finished query's argument list has exactly one entry
per distinct pushed `String` value, one per distinct pushed `Uuid` value,
and one per keyword push (keywords are not deduplicated), so its length
is the number of distinct strings plus the number of distinct UUIDs plus
the number of keyword pushes.  (In particular the dedup-map keys are
duplicate-free and are exactly the pushed strings/UUIDs.) -/
theorem c5_parameter_dedup (vs : List TypedValue) :
    ((pushValues SQLiteQueryBuilder.new vs).finish.args.length
        = (stringsOf vs).toFinset.card + (uuidsOf vs).toFinset.card
          + keywordCount vs)
    ∧ ((pushValues SQLiteQueryBuilder.new vs).string_args.map Prod.fst).Nodup
    ∧ (∀ s : Str, s ∈ (pushValues SQLiteQueryBuilder.new vs).string_args.map Prod.fst
        ↔ s ∈ stringsOf vs)
    ∧ ((pushValues SQLiteQueryBuilder.new vs).uuid_args.map Prod.fst).Nodup
    ∧ (∀ u : Uuid, u ∈ (pushValues SQLiteQueryBuilder.new vs).uuid_args.map Prod.fst
        ↔ u ∈ uuidsOf vs) := by
  have hbase_s : (SQLiteQueryBuilder.new.string_args.map Prod.fst).Nodup := by
    simp [SQLiteQueryBuilder.new, SQLiteQueryBuilder.with_stem]
  have hbase_u : (SQLiteQueryBuilder.new.uuid_args.map Prod.fst).Nodup := by
    simp [SQLiteQueryBuilder.new, SQLiteQueryBuilder.with_stem]
  have hs_nodup := pushValues_nodup_string_keys vs SQLiteQueryBuilder.new hbase_s
  have hu_nodup := pushValues_nodup_uuid_keys vs SQLiteQueryBuilder.new hbase_u
  have hs_mem : ∀ s : Str,
      s ∈ (pushValues SQLiteQueryBuilder.new vs).string_args.map Prod.fst
        ↔ s ∈ stringsOf vs := by
    intro s
    rw [pushValues_mem_string_keys]
    simp [SQLiteQueryBuilder.new, SQLiteQueryBuilder.with_stem]
  have hu_mem : ∀ u : Uuid,
      u ∈ (pushValues SQLiteQueryBuilder.new vs).uuid_args.map Prod.fst
        ↔ u ∈ uuidsOf vs := by
    intro u
    rw [pushValues_mem_uuid_keys]
    simp [SQLiteQueryBuilder.new, SQLiteQueryBuilder.with_stem]
  refine ⟨?_, hs_nodup, hs_mem, hu_nodup, hu_mem⟩
  have hslen : (pushValues SQLiteQueryBuilder.new vs).string_args.length
      = (stringsOf vs).toFinset.card := by
    have hfs : ((pushValues SQLiteQueryBuilder.new vs).string_args.map Prod.fst).toFinset
        = (stringsOf vs).toFinset := by
      apply Finset.ext
      intro a
      simp only [List.mem_toFinset]
      exact hs_mem a
    calc (pushValues SQLiteQueryBuilder.new vs).string_args.length
        = ((pushValues SQLiteQueryBuilder.new vs).string_args.map Prod.fst).length := by
          rw [List.length_map]
      _ = ((pushValues SQLiteQueryBuilder.new vs).string_args.map Prod.fst).toFinset.card :=
          (List.toFinset_card_of_nodup hs_nodup).symm
      _ = (stringsOf vs).toFinset.card := by rw [hfs]
  have hulen : (pushValues SQLiteQueryBuilder.new vs).uuid_args.length
      = (uuidsOf vs).toFinset.card := by
    have hfu : ((pushValues SQLiteQueryBuilder.new vs).uuid_args.map Prod.fst).toFinset
        = (uuidsOf vs).toFinset := by
      apply Finset.ext
      intro a
      simp only [List.mem_toFinset]
      exact hu_mem a
    calc (pushValues SQLiteQueryBuilder.new vs).uuid_args.length
        = ((pushValues SQLiteQueryBuilder.new vs).uuid_args.map Prod.fst).length := by
          rw [List.length_map]
      _ = ((pushValues SQLiteQueryBuilder.new vs).uuid_args.map Prod.fst).toFinset.card :=
          (List.toFinset_card_of_nodup hu_nodup).symm
      _ = (uuidsOf vs).toFinset.card := by rw [hfu]
  have hargs : (pushValues SQLiteQueryBuilder.new vs).args.length = keywordCount vs := by
    rw [pushValues_args_length]
    simp [SQLiteQueryBuilder.new, SQLiteQueryBuilder.with_stem]
  rw [finish_args_length, hargs, hslen, hulen]
  omega
